import Mathlib

/-!
Verification of the twitter-data-intelligence core against its specification.

The development shallow-embeds the two modules the claims concern:
  * src/transform/sentiment_analyzer.py  (SentimentAnalyzer)
  * src/load/database_loader.py          (DatabaseLoader)

Modelling conventions:
  * Python floats are modelled as rationals (ℚ); SQL integers as Int.
  * A value read from a Python dict with `d.get(key, default)` is stored in
    the corresponding record field exactly as the call returns it: `none`
    models both "key absent, no default given" and "key bound to None".
  * Loosely typed values (entries of the hashtags/mentions lists, values of
    tweet dicts) are modelled by the type `PyV` below; its `other` case
    stands for any Python value that is neither None, a string, nor a
    number, carrying only its truthiness.
  * Wall-clock timestamps (`collected_at`/`processed_at`, produced by
    `datetime.now()`) are not modelled: no claim mentions them, and they
    take no part in any branch of the translated code.
  * The TextBlob library is an external collaborator; it is modelled as a
    parameter `blob : String → Option Blob`, `none` standing for the call
    raising an exception (which the source catches).
  * SQLite exceptions reachable from the translated statements are NOT NULL
    constraint violations on the tweets table; `Except DBError` models the
    fallible statements, and the `try/except` of `save_tweets` is the
    surrounding `match`.
-/

namespace TwitterDI

/-- A dynamically typed Python value: None, a string, a number, or anything
else (carrying only its truthiness).  Used for entries of the
hashtags/mentions lists and for values of tweet dicts. -/
inductive PyV where
  | none
  | str (s : String)
  | num (q : ℚ)
  | other (b : Bool)
deriving DecidableEq, Repr

/-- Python truthiness of a `PyV`. -/
def PyV.truthy : PyV → Bool
  | .none => false
  | .str s => s ≠ ""
  | .num q => q ≠ 0
  | .other b => b

/-- `True` exactly for the inputs the classifier's guard
`not text or not isinstance(text, str)` sends to the early return:
the empty string and every non-string value. -/
def emptyOrNonString : PyV → Bool
  | .str s => s == ""
  | _ => true

/-- Result of `TextBlob(...).sentiment`: polarity in [-1,1] and
subjectivity in [0,1] per the library's documentation (quoted in the
source's comments). -/
structure Blob where
  polarity : ℚ
  subjectivity : ℚ
deriving DecidableEq, Repr

/-- The two classification thresholds of `SentimentAnalyzer.__init__`. -/
structure Thresholds where
  positive : ℚ
  negative : ℚ
deriving DecidableEq, Repr

/-- The default thresholds `{'positive': 0.1, 'negative': -0.1}`
(the rationals 1/10 and -1/10, written as raw fractions so they evaluate
inside the kernel). -/
def defaultThresholds : Thresholds :=
  ⟨⟨1, 10, by decide, by decide⟩, ⟨-1, 10, by decide, by decide⟩⟩

/-- Python `str.strip()`: drop whitespace from both ends.  (Defined by
structural recursion over the character list so that concrete instances
evaluate; agrees with the library `String.trim` on the strings at hand.) -/
def pyStrip (s : String) : String :=
  ⟨((s.data.dropWhile Char.isWhitespace).reverse.dropWhile Char.isWhitespace).reverse⟩

/-- Python `str.lower()` (ASCII case folding, as `Char.toLower` performs). -/
def pyLower (s : String) : String :=
  ⟨s.data.map Char.toLower⟩

/-- The dictionary returned by `SentimentAnalyzer.analyze_sentiment`.
`cleaned_text` is an `Option` because the early return for empty/non-string
input omits that key entirely, while the other two returns carry it. -/
structure SentimentResult where
  sentiment_score : ℚ
  sentiment_polarity : ℚ
  sentiment_subjectivity : ℚ
  sentiment_category : String
  confidence : ℚ
  cleaned_text : Option String
deriving DecidableEq, Repr

/-- The dict returned for empty or non-string input (no `cleaned_text`
key; confidence hard-coded to 0.0). -/
def emptyInputResult : SentimentResult :=
  { sentiment_score := 0, sentiment_polarity := 0, sentiment_subjectivity := 0,
    sentiment_category := "neutral", confidence := 0, cleaned_text := Option.none }

/-- The dict returned by the `except` branch (any internal failure):
neutral, all zeros, `cleaned_text` present but empty. -/
def errorResult : SentimentResult :=
  { sentiment_score := 0, sentiment_polarity := 0, sentiment_subjectivity := 0,
    sentiment_category := "neutral", confidence := 0, cleaned_text := some "" }

/-- `SentimentAnalyzer.analyze_sentiment` (sentiment_analyzer.py, lines
23-77).  `blob` models the TextBlob call; `none` is the call raising, which
the source's `try/except` turns into `errorResult`. -/
def analyze_sentiment (blob : String → Option Blob) (th : Thresholds)
    (text : PyV) : SentimentResult :=
  match text with
  | .str s =>
    if s = "" then emptyInputResult
    else
      let cleaned := pyStrip s
      match blob cleaned with
      | Option.none => errorResult
      | some bl =>
        let polarity := bl.polarity
        let category :=
          if polarity > th.positive then "positive"
          else if polarity < th.negative then "negative"
          else "neutral"
        { sentiment_score := polarity,
          sentiment_polarity := polarity,
          sentiment_subjectivity := bl.subjectivity,
          sentiment_category := category,
          confidence := if category ≠ "neutral" then |polarity| else 1 - |polarity|,
          cleaned_text := some (cleaned.take 100) }
  | _ => emptyInputResult

/-- A Python dict, modelled as an association list (keys unique in
practice; the lookup takes the first match, as a dict read does). -/
abbrev Dict : Type := List (String × PyV)

/-- `d.get(k, dflt)` — value at the matching key (Python dict keys are
unique, so the first match is the match), `dflt` when absent. -/
def dictGetD (d : Dict) (k : String) (dflt : PyV) : PyV :=
  match d with
  | [] => dflt
  | p :: ps => if p.1 == k then p.2 else dictGetD ps k dflt

/-- `d.get(k)`. -/
def dictGet (d : Dict) (k : String) : PyV :=
  dictGetD d k PyV.none

/-- `d[k] = v` as performed by `dict.update`: an existing key keeps its
position and gets the new value, a new key is appended at the end. -/
def dictSet (d : Dict) (k : String) (v : PyV) : Dict :=
  match d with
  | [] => [(k, v)]
  | p :: ps => if p.1 == k then (k, v) :: ps else p :: dictSet ps k v

/-- `tweet.get('text') or tweet.get('content', '')` — the text fed to the
classifier by `analyze_tweets` (and by `save_tweets` for the `content`
column). -/
def textOf (d : Dict) : PyV :=
  let t := dictGet d "text"
  if t.truthy then t else dictGetD d "content" (.str "")

/-- The `analyzed.update({...})` of `analyze_tweets`: writes the five
sentiment keys, in the order of the dict literal. -/
def attachSentiment (d : Dict) (s : SentimentResult) : Dict :=
  let d1 := dictSet d "sentiment_score" (.num s.sentiment_score)
  let d2 := dictSet d1 "sentiment_polarity" (.num s.sentiment_polarity)
  let d3 := dictSet d2 "sentiment_subjectivity" (.num s.sentiment_subjectivity)
  let d4 := dictSet d3 "sentiment_category" (.str s.sentiment_category)
  dictSet d4 "sentiment_confidence" (.num s.confidence)

/-- `SentimentAnalyzer.analyze_tweets` (sentiment_analyzer.py, lines
79-114): copy each tweet dict, classify its text, attach the five
sentiment fields, collect the copies in order.  (The `if not tweets:
return []` early exit coincides with mapping over the empty list.) -/
def analyze_tweets (blob : String → Option Blob) (th : Thresholds)
    (tweets : List Dict) : List Dict :=
  tweets.map (fun tweet =>
    attachSentiment tweet (analyze_sentiment blob th (textOf tweet)))

/-! ## Database loader (src/load/database_loader.py) -/

/-- One raw item of a batch handed to `DatabaseLoader.save_tweets`: the
values that `save_tweets` reads out of the tweet dict (each field holds
exactly what the corresponding `tweet.get(...)` call returns, so `none`
models a missing key without a default as well as an explicit `None`;
fields read with a default hold that default when the key is absent). -/
structure Tweet where
  tweet_id : Option String
  created_at : Option String
  text : Option String
  content : Option String := some ""
  user_id : Option String
  user_name : Option String
  user_display_name : Option String := Option.none
  user_followers : Option Int := some 0
  user_following : Option Int := some 0
  retweet_count : Option Int := some 0
  favorite_count : Option Int := some 0
  reply_count : Option Int := some 0
  is_retweet : Bool := false
  language : Option String := some "en"
  source : Option String := some ""
  sentiment_score : Option ℚ := Option.none
  sentiment_category : Option String := Option.none
  brand_mentioned : Option String := Option.none
  hashtags : List PyV := []
  mentions : List PyV := []
deriving DecidableEq, Repr

/-- A row of the `tweets` table.  Columns declared NOT NULL are plain
values, nullable columns are `Option`s.  `is_retweet` holds the `1`/`0`
the loader computes.  The `id` autoincrement key and the wall-clock
`collected_at`/`processed_at` columns are not modelled (no claim touches
them and no translated branch reads them). -/
structure TweetRow where
  tweet_id : String
  created_at : String
  content : String
  user_id : String
  user_name : String
  user_display_name : Option String
  user_followers : Option Int
  user_following : Option Int
  retweet_count : Option Int
  favorite_count : Option Int
  reply_count : Option Int
  is_retweet : Int
  language : Option String
  source : Option String
  sentiment_score : Option ℚ
  sentiment_category : Option String
  brand_mentioned : Option String
deriving DecidableEq, Repr

/-- The persistent state: the four relations created by `_create_tables`.
Hashtag and mention rows are `(tweet_id, value)` pairs; brand rows are the
`name` column (`category`/timestamps never written by this code path). -/
structure DB where
  tweets : List TweetRow
  hashtags : List (String × String)
  mentions : List (String × String)
  brands : List String
deriving DecidableEq, Repr

/-- The freshly created empty database. -/
def DB.empty : DB := ⟨[], [], [], []⟩

/-- An exception raised by a storage statement.  The constraint failures
reachable from the translated insert are NOT NULL violations on the
`tweets` table (a bind parameter that is Python `None` for a NOT NULL
column). -/
inductive DBError where
  | notNull (column : String)
deriving DecidableEq, Repr

/-- `tweet.get('text') or tweet.get('content', '')` — value bound to the
`content` column (line 211). -/
def contentOf (t : Tweet) : Option String :=
  match t.text with
  | some s => if s = "" then t.content else some s
  | Option.none => t.content

/-- The row built by the parameter tuple of the tweet INSERT
(lines 208-228), checking the NOT NULL constraints of the schema; a
`None` bound to a NOT NULL column raises. -/
def mkRow (t : Tweet) : Except DBError TweetRow :=
  match t.tweet_id, t.created_at, contentOf t, t.user_id, t.user_name with
  | some tid, some ca, some c, some uid, some un =>
    .ok { tweet_id := tid, created_at := ca, content := c,
          user_id := uid, user_name := un,
          user_display_name := t.user_display_name,
          user_followers := t.user_followers,
          user_following := t.user_following,
          retweet_count := t.retweet_count,
          favorite_count := t.favorite_count,
          reply_count := t.reply_count,
          is_retweet := if t.is_retweet then 1 else 0,
          language := t.language, source := t.source,
          sentiment_score := t.sentiment_score,
          sentiment_category := t.sentiment_category,
          brand_mentioned := t.brand_mentioned }
  | Option.none, _, _, _, _ => .error (.notNull "tweet_id")
  | _, Option.none, _, _, _ => .error (.notNull "created_at")
  | _, _, Option.none, _, _ => .error (.notNull "content")
  | _, _, _, Option.none, _ => .error (.notNull "user_id")
  | _, _, _, _, Option.none => .error (.notNull "user_name")

/-- The duplicate check `SELECT tweet_id FROM tweets WHERE tweet_id = ?`
(lines 188-193).  SQL equality with a NULL parameter matches nothing. -/
def tweetIdExists (db : DB) (tid : Option String) : Bool :=
  match tid with
  | some s => db.tweets.any (fun r => r.tweet_id == s)
  | Option.none => false

/-- `INSERT OR REPLACE INTO tweets`: any row conflicting on the UNIQUE
`tweet_id` column is deleted, then the new row is appended. -/
def insertOrReplaceTweet (rows : List TweetRow) (r : TweetRow) : List TweetRow :=
  rows.filter (fun q => q.tweet_id ≠ r.tweet_id) ++ [r]

/-- The normalized form a hashtag is stored in: `hashtag.lower().strip()`
(line 238). -/
def normTag (s : String) : String := pyStrip (pyLower s)

/-- `INSERT OR IGNORE INTO hashtags`: the UNIQUE(tweet_id, hashtag)
constraint turns a duplicate pair into a no-op. -/
def addHashtag (hs : List (String × String)) (tid tag : String) :
    List (String × String) :=
  if (tid, tag) ∈ hs then hs else hs ++ [(tid, tag)]

/-- The hashtag loop of `save_tweets` (lines 233-239): keep entries that
are truthy strings, store them lowercased and stripped, insert-or-ignore. -/
def saveHashtags (hs : List (String × String)) (tid : String)
    (tags : List PyV) : List (String × String) :=
  tags.foldl (fun acc h =>
    match h with
    | .str s => if s = "" then acc else addHashtag acc tid (normTag s)
    | _ => acc) hs

/-- The mention loop of `save_tweets` (lines 242-248): keep entries that
are truthy strings, store them stripped, plain INSERT (no uniqueness). -/
def saveMentions (ms : List (String × String)) (tid : String)
    (mentions : List PyV) : List (String × String) :=
  mentions.foldl (fun acc m =>
    match m with
    | .str s => if s = "" then acc else acc ++ [(tid, pyStrip s)]
    | _ => acc) ms

/-- Effect of the accepted branch of the loop body on the state, given the
already validated row: insert the tweet row, then its hashtags, then its
mentions. -/
def saveOneOk (db : DB) (t : Tweet) (row : TweetRow) : DB :=
  { db with
    tweets := insertOrReplaceTweet db.tweets row,
    hashtags := saveHashtags db.hashtags row.tweet_id t.hashtags,
    mentions := saveMentions db.mentions row.tweet_id t.mentions }

/-- The accepted branch of the loop body of `save_tweets` (lines 197-250):
validate and insert the tweet row and its entity rows; a constraint
violation propagates. -/
def saveOne (db : DB) (t : Tweet) : Except DBError DB :=
  match mkRow t with
  | .error e => .error e
  | .ok row => .ok (saveOneOk db t row)

/-- The `for tweet in tweets_data` loop of `save_tweets` (lines 186-250):
in sequence order, skip items whose `tweet_id` is already present
(uncommitted rows of the running transaction included), insert the rest,
counting only actual inserts; the first raised exception aborts the
loop. -/
def saveLoop (db : DB) (batch : List Tweet) (n : Nat) :
    Except DBError (DB × Nat) :=
  match batch with
  | [] => .ok (db, n)
  | t :: ts =>
    if tweetIdExists db t.tweet_id then saveLoop db ts n
    else
      match saveOne db t with
      | .error e => .error e
      | .ok db2 => saveLoop db2 ts (n + 1)

/-- `SELECT DISTINCT` projection: first occurrence of each value kept, in
row order. -/
def sqlDistinctAux : List String → List String → List String
  | [], _ => []
  | x :: xs, seen =>
    if x ∈ seen then sqlDistinctAux xs seen
    else x :: sqlDistinctAux xs (x :: seen)

/-- `SELECT DISTINCT` over a column. -/
def sqlDistinct (l : List String) : List String := sqlDistinctAux l []

/-- `INSERT OR IGNORE INTO brands (name)`: the UNIQUE `name` column turns
a duplicate into a no-op. -/
def insertBrand (brands : List String) (name : String) : List String :=
  if name ∈ brands then brands else brands ++ [name]

/-- `DatabaseLoader._update_brand_stats` (lines 297-323): select the
distinct non-NULL, non-empty `brand_mentioned` values of the tweets
table and insert-or-ignore each, stripped, into `brands`.  (Its own
statements cannot raise, so its `try/except` has no error branch to
model.) -/
def update_brand_stats (db : DB) : DB :=
  let vals := (db.tweets.filterMap (fun r => r.brand_mentioned)).filter
    (fun b => b ≠ "")
  { db with
    brands := (sqlDistinct vals).foldl
      (fun acc b => if b = "" then acc else insertBrand acc (pyStrip b))
      db.brands }

/-- `DatabaseLoader.save_tweets` (lines 167-264): empty input returns 0 at
once; otherwise the loop runs inside one transaction — on success the
transaction commits, brand maintenance runs, and the insert count is
returned; on any exception the transaction is rolled back (the state
reverts to the entry state) and the method returns 0, catching the
exception. -/
def save_tweets (db : DB) (batch : List Tweet) : DB × Int :=
  if batch.isEmpty then (db, 0)
  else
    match saveLoop db batch 0 with
    | .ok (db2, n) => (update_brand_stats db2, (n : Int))
    | .error _ => (db, 0)

/-- The states reachable from a fresh database by running `save_tweets`
on arbitrary batches. -/
inductive Reachable : DB → Prop where
  | init : Reachable DB.empty
  | step (db : DB) (batch : List Tweet) :
      Reachable db → Reachable (save_tweets db batch).1

/-! ### Daily statistics (get_daily_stats, lines 378-450) -/

/-- SQLite `DATE(...)` on the ISO-8601 timestamps this pipeline stores:
the leading `YYYY-MM-DD` part. -/
def sqlDate (s : String) : String := s.take 10

/-- SQL `AVG` over a nullable integer column: NULL values are ignored;
the result is NULL when no value remains. -/
def sqlAvg (l : List (Option Int)) : Option ℚ :=
  let vals := l.filterMap id
  match vals with
  | [] => Option.none
  | _ => some ((vals.foldl (· + ·) 0 : ℤ) / (vals.length : ℚ))

/-- `float(x) if row and x else 0.0`: a NULL (or falsy 0.0) average is
reported as 0.0. -/
def pyFloatOrZero (o : Option ℚ) : ℚ :=
  match o with
  | Option.none => 0
  | some q => if q = 0 then 0 else q

/-- `GROUP BY` with `COUNT(*)`: one pair per distinct value, in first
occurrence order. -/
def groupCounts (l : List String) : List (String × Nat) :=
  (sqlDistinct l).map (fun k => (k, (l.filter (fun x => x = k)).length))

/-- Insertion step of a stable descending sort on the count column. -/
def insertDescByCount (x : String × Nat) :
    List (String × Nat) → List (String × Nat)
  | [] => [x]
  | y :: ys => if y.2 < x.2 then x :: y :: ys else y :: insertDescByCount x ys

/-- `ORDER BY count DESC` (tie order unspecified by the spec). -/
def sortByCountDesc (l : List (String × Nat)) : List (String × Nat) :=
  l.foldr insertDescByCount []

/-- The dictionary `get_daily_stats` builds. -/
structure DailyStats where
  total_tweets : Nat
  unique_users : Nat
  avg_retweets : ℚ
  avg_favorites : ℚ
  top_brands : List (String × Nat)
  top_hashtags : List (String × Nat)
deriving DecidableEq, Repr

/-- `DatabaseLoader.get_daily_stats` (lines 378-450) for an explicit date
argument (the wall-clock default and the unreachable `except` branch are
outside the model: every translated query is total). -/
def get_daily_stats (db : DB) (date : String) : DailyStats :=
  let dayRows := db.tweets.filter (fun r => sqlDate r.created_at == date)
  let brandVals := dayRows.filterMap (fun r =>
    match r.brand_mentioned with
    | some b => if b = "" then Option.none else some b
    | Option.none => Option.none)
  let joinedTags := db.hashtags.flatMap (fun h =>
    (db.tweets.filter (fun t =>
      t.tweet_id == h.1 && sqlDate t.created_at == date)).map (fun _ => h.2))
  { total_tweets := dayRows.length,
    unique_users := (sqlDistinct (dayRows.map (fun r => r.user_id))).length,
    avg_retweets := pyFloatOrZero (sqlAvg (dayRows.map (fun r => r.retweet_count))),
    avg_favorites := pyFloatOrZero (sqlAvg (dayRows.map (fun r => r.favorite_count))),
    top_brands := (sortByCountDesc (groupCounts brandVals)).take 5,
    top_hashtags := (sortByCountDesc (groupCounts joinedTags)).take 10 }

/-! ## Concrete instances used by witnesses and counterexamples -/

/-- A concrete classifier backend: every text gets polarity 1,
subjectivity 0 (a well-behaved TextBlob stand-in). -/
def blobW : String → Option Blob := fun _ => some ⟨1, 0⟩

/-! ## Claim C4 -/

/-- C4: for every input the classifier returns a sentiment score in
[-1, 1] (given that the TextBlob backend honours its documented polarity
range); every empty-string or non-string input yields category "neutral"
and score 0; and an internal failure of the backend never escapes: it
yields the neutral/zero result. -/
theorem analyze_sentiment_range_and_total
    (blob : String → Option Blob) (th : Thresholds) (text : PyV)
    (hrange : ∀ s bl, blob s = some bl → -1 ≤ bl.polarity ∧ bl.polarity ≤ 1) :
    (-1 ≤ (analyze_sentiment blob th text).sentiment_score ∧
      (analyze_sentiment blob th text).sentiment_score ≤ 1) ∧
    (emptyOrNonString text = true →
      (analyze_sentiment blob th text).sentiment_category = "neutral" ∧
      (analyze_sentiment blob th text).sentiment_score = 0) ∧
    (∀ s, text = PyV.str s → s ≠ "" → blob (pyStrip s) = Option.none →
      analyze_sentiment blob th text = errorResult) := by
  have hzero : -1 ≤ (0 : ℚ) ∧ (0 : ℚ) ≤ 1 := by norm_num
  match text with
  | PyV.none =>
    refine ⟨hzero, fun _ => ⟨rfl, rfl⟩, ?_⟩
    intro s hs
    exact absurd hs (by simp)
  | PyV.num q =>
    refine ⟨hzero, fun _ => ⟨rfl, rfl⟩, ?_⟩
    intro s hs
    exact absurd hs (by simp)
  | PyV.other b =>
    refine ⟨hzero, fun _ => ⟨rfl, rfl⟩, ?_⟩
    intro s hs
    exact absurd hs (by simp)
  | PyV.str s =>
    by_cases hs : s = ""
    · subst hs
      refine ⟨hzero, fun _ => ⟨rfl, rfl⟩, ?_⟩
      intro s2 hs2 hne
      exact absurd (PyV.str.inj hs2).symm hne
    · cases hb : blob (pyStrip s) with
      | none =>
        simp only [analyze_sentiment, if_neg hs, hb]
        refine ⟨hzero, ?_, ?_⟩
        · intro hfalse
          simp [emptyOrNonString, hs] at hfalse
        · intro s2 hs2 hne2 hb2
          trivial
      | some bl =>
        simp only [analyze_sentiment, if_neg hs, hb]
        refine ⟨hrange _ _ hb, ?_, ?_⟩
        · intro hfalse
          simp [emptyOrNonString, hs] at hfalse
        · intro s2 hs2 hne2 hb2
          cases PyV.str.inj hs2
          rw [hb] at hb2
          exact absurd hb2 (by simp)

/-- Witness for C4: the range conclusion at a concrete backend, thresholds
and input text. -/
theorem analyze_sentiment_range_and_total_witness :
    -1 ≤ (analyze_sentiment blobW defaultThresholds (PyV.str "great")).sentiment_score ∧
    (analyze_sentiment blobW defaultThresholds (PyV.str "great")).sentiment_score ≤ 1 :=
  (analyze_sentiment_range_and_total blobW defaultThresholds (PyV.str "great")
    (fun s bl h => by
      cases Option.some.inj h
      exact ⟨by decide, by decide⟩)).1

/-! ## Claim C5 -/

/-- Counterexample to C5: on the empty string the classifier returns
category "neutral" with score 0.0 but confidence 0.0, not the
1 - abs(score) = 1.0 the claim asserts: the hard-coded early return for
empty/non-string input does not follow the confidence formula. -/
theorem analyze_sentiment_empty_confidence_not_one :
    (analyze_sentiment blobW defaultThresholds (PyV.str "")).sentiment_category
        = "neutral" ∧
    (analyze_sentiment blobW defaultThresholds (PyV.str "")).sentiment_score = 0 ∧
    (analyze_sentiment blobW defaultThresholds (PyV.str "")).confidence ≠
      1 - |(analyze_sentiment blobW defaultThresholds (PyV.str "")).sentiment_score| := by
  refine ⟨rfl, rfl, ?_⟩
  show (0 : ℚ) ≠ 1 - |(0 : ℚ)|
  norm_num

/-- C5 as amended: the confidence formula (abs(score) for
positive/negative, 1 - abs(score) for neutral) holds for every non-empty
string input whose analysis succeeds; empty-string, non-string, and
failed-analysis inputs all get the hard-coded confidence 0.0 instead. -/
theorem analyze_sentiment_confidence_formula
    (blob : String → Option Blob) (th : Thresholds) (s : String) (bl : Blob)
    (hs : s ≠ "") (hb : blob (pyStrip s) = some bl) :
    ((analyze_sentiment blob th (PyV.str s)).sentiment_category ≠ "neutral" →
      (analyze_sentiment blob th (PyV.str s)).confidence =
        |(analyze_sentiment blob th (PyV.str s)).sentiment_score|) ∧
    ((analyze_sentiment blob th (PyV.str s)).sentiment_category = "neutral" →
      (analyze_sentiment blob th (PyV.str s)).confidence =
        1 - |(analyze_sentiment blob th (PyV.str s)).sentiment_score|) ∧
    (∀ v, emptyOrNonString v = true →
      (analyze_sentiment blob th v).confidence = 0) ∧
    (∀ s2, s2 ≠ "" → blob (pyStrip s2) = Option.none →
      (analyze_sentiment blob th (PyV.str s2)).confidence = 0) := by
  refine ⟨?_, ?_, ?_, ?_⟩
  · intro hcat
    simp only [analyze_sentiment, if_neg hs, hb] at hcat ⊢
    by_cases h1 : bl.polarity > th.positive
    · simp [h1]
    · by_cases h2 : bl.polarity < th.negative
      · simp [h1, h2]
      · simp [h1, h2] at hcat
  · intro hcat
    simp only [analyze_sentiment, if_neg hs, hb] at hcat ⊢
    by_cases h1 : bl.polarity > th.positive
    · simp [h1] at hcat
    · by_cases h2 : bl.polarity < th.negative
      · simp [h1, h2] at hcat
      · simp [h1, h2]
  · intro v hv
    match v, hv with
    | PyV.none, _ => rfl
    | PyV.num q, _ => rfl
    | PyV.other b, _ => rfl
    | PyV.str s2, hv =>
      have : s2 = "" := by simpa [emptyOrNonString] using hv
      subst this
      rfl
  · intro s2 hs2 hb2
    simp [analyze_sentiment, if_neg hs2, hb2, errorResult]

/-- Witness for C5 (amended): at the concrete backend of polarity 1 the
category is "positive" and the confidence equals abs(score). -/
theorem analyze_sentiment_confidence_formula_witness :
    (analyze_sentiment blobW defaultThresholds (PyV.str "great")).confidence =
      |(analyze_sentiment blobW defaultThresholds (PyV.str "great")).sentiment_score| :=
  (analyze_sentiment_confidence_formula blobW defaultThresholds "great" ⟨1, 0⟩
    (by decide) rfl).1 (by decide)

/-! ## Claim C10 -/

/-- The five keys `analyze_tweets` writes into each copied record. -/
def sentimentKeys : List String :=
  ["sentiment_score", "sentiment_polarity", "sentiment_subjectivity",
   "sentiment_category", "sentiment_confidence"]

theorem dictSet_mem_of_ne {d : Dict} {p : String × PyV} (k : String) (v : PyV)
    (hp : p ∈ d) (hk : p.1 ≠ k) : p ∈ dictSet d k v := by
  induction d with
  | nil => cases hp
  | cons a ps ih =>
    rcases List.mem_cons.mp hp with rfl | hmem
    · have : (p.1 == k) = false := by simpa using hk
      simp [dictSet, this]
    · by_cases h : a.1 = k
      · simp [dictSet, h, List.mem_cons, hmem]
      · have hb : (a.1 == k) = false := by simpa using h
        simp only [dictSet, hb, Bool.false_eq_true, if_false]
        exact List.mem_cons_of_mem _ (ih hmem)

theorem dictGet_dictSet_self (d : Dict) (k : String) (v : PyV) :
    dictGet (dictSet d k v) k = v := by
  induction d with
  | nil => simp [dictGet, dictGetD, dictSet]
  | cons a ps ih =>
    by_cases h : a.1 = k
    · simp [dictGet, dictGetD, dictSet, h]
    · simp only [dictSet, if_neg (by simpa using h)]
      simpa [dictGet, dictGetD, h] using ih

theorem dictGet_dictSet_ne (d : Dict) (k k2 : String) (v : PyV) (hne : k2 ≠ k) :
    dictGet (dictSet d k v) k2 = dictGet d k2 := by
  have hkk : (k == k2) = false := by simpa using Ne.symm hne
  induction d with
  | nil => simp [dictGet, dictGetD, dictSet, hkk]
  | cons a ps ih =>
    by_cases h : a.1 = k
    · have hb : (a.1 == k) = true := by simpa using h
      have hb2 : (a.1 == k2) = false := by
        simp [h]
        exact Ne.symm hne
      simp [dictGet, dictGetD, dictSet, hb, hb2, hkk]
    · have hb : (a.1 == k) = false := by simpa using h
      by_cases h2 : a.1 = k2
      · have hb2 : (a.1 == k2) = true := by simpa using h2
        simp [dictGet, dictGetD, dictSet, hb, hb2]
      · have hb2 : (a.1 == k2) = false := by simpa using h2
        simpa [dictGet, dictGetD, dictSet, hb, hb2] using ih

/-- Relation between an input record and its analyzed copy: every entry
at a non-sentiment key survives, and the five sentiment keys hold the
classification of the record's text. -/
def entryRel (blob : String → Option Blob) (th : Thresholds)
    (d d2 : Dict) : Prop :=
  (∀ p ∈ d, p.1 ∉ sentimentKeys → p ∈ d2) ∧
  dictGet d2 "sentiment_score" =
    .num (analyze_sentiment blob th (textOf d)).sentiment_score ∧
  dictGet d2 "sentiment_polarity" =
    .num (analyze_sentiment blob th (textOf d)).sentiment_polarity ∧
  dictGet d2 "sentiment_subjectivity" =
    .num (analyze_sentiment blob th (textOf d)).sentiment_subjectivity ∧
  dictGet d2 "sentiment_category" =
    .str (analyze_sentiment blob th (textOf d)).sentiment_category ∧
  dictGet d2 "sentiment_confidence" =
    .num (analyze_sentiment blob th (textOf d)).confidence

theorem attachSentiment_entryRel (blob : String → Option Blob)
    (th : Thresholds) (d : Dict) :
    entryRel blob th d (attachSentiment d (analyze_sentiment blob th (textOf d))) := by
  unfold entryRel attachSentiment
  refine ⟨?_, ?_, ?_, ?_, ?_, ?_⟩
  · intro p hp hkeys
    simp only [sentimentKeys, List.mem_cons, List.not_mem_nil, or_false] at hkeys
    push_neg at hkeys
    obtain ⟨h1, h2, h3, h4, h5⟩ := hkeys
    exact dictSet_mem_of_ne _ _
      (dictSet_mem_of_ne _ _ (dictSet_mem_of_ne _ _
        (dictSet_mem_of_ne _ _ (dictSet_mem_of_ne _ _ hp h1) h2) h3) h4) h5
  · rw [dictGet_dictSet_ne _ _ _ _ (by decide), dictGet_dictSet_ne _ _ _ _ (by decide),
      dictGet_dictSet_ne _ _ _ _ (by decide), dictGet_dictSet_ne _ _ _ _ (by decide),
      dictGet_dictSet_self]
  · rw [dictGet_dictSet_ne _ _ _ _ (by decide), dictGet_dictSet_ne _ _ _ _ (by decide),
      dictGet_dictSet_ne _ _ _ _ (by decide), dictGet_dictSet_self]
  · rw [dictGet_dictSet_ne _ _ _ _ (by decide), dictGet_dictSet_ne _ _ _ _ (by decide),
      dictGet_dictSet_self]
  · rw [dictGet_dictSet_ne _ _ _ _ (by decide), dictGet_dictSet_self]
  · rw [dictGet_dictSet_self]

/-- Counterexample to C10: a record that already carries a sentiment key
does not keep that pair — `analyzed.update` overwrites it with the newly
computed value (here 99 becomes the neutral 0 of its empty text). -/
theorem analyze_tweets_overwrites_sentiment_keys :
    ("sentiment_score", PyV.num 99) ∈
      ([("text", PyV.str ""), ("sentiment_score", PyV.num 99)] : Dict) ∧
    ("sentiment_score", PyV.num 99) ∉
      (analyze_tweets blobW defaultThresholds
        [[("text", PyV.str ""), ("sentiment_score", PyV.num 99)]]).headD [] := by
  decide

/-- C10 as amended: `analyze_tweets` returns a new list of the same
length and order; each output record keeps every input entry whose key is
not one of the five sentiment keys, and maps those five keys to the
computed sentiment values (overwriting any pre-existing entries at those
keys); the input records are left as they were. -/
theorem analyze_tweets_preserves_other_keys (blob : String → Option Blob)
    (th : Thresholds) (tweets : List Dict) :
    (analyze_tweets blob th tweets).length = tweets.length ∧
    List.Forall₂ (entryRel blob th) tweets (analyze_tweets blob th tweets) := by
  constructor
  · simp [analyze_tweets]
  · unfold analyze_tweets
    induction tweets with
    | nil => exact List.Forall₂.nil
    | cons d l ih =>
      exact List.Forall₂.cons (attachSentiment_entryRel blob th d) ih

/-- Witness for C10 (amended) at a concrete batch. -/
theorem analyze_tweets_preserves_other_keys_witness :
    List.Forall₂ (entryRel blobW defaultThresholds)
      [[("text", PyV.str ""), ("sentiment_score", PyV.num 99)]]
      (analyze_tweets blobW defaultThresholds
        [[("text", PyV.str ""), ("sentiment_score", PyV.num 99)]]) :=
  (analyze_tweets_preserves_other_keys blobW defaultThresholds
    [[("text", PyV.str ""), ("sentiment_score", PyV.num 99)]]).2

/-! ## Helper lemmas on the store -/

theorem update_brand_stats_tweets (db : DB) :
    (update_brand_stats db).tweets = db.tweets := rfl

theorem update_brand_stats_hashtags (db : DB) :
    (update_brand_stats db).hashtags = db.hashtags := rfl

theorem mkRow_tweet_id {t : Tweet} {row : TweetRow} (h : mkRow t = .ok row) :
    t.tweet_id = some row.tweet_id := by
  unfold mkRow at h
  cases ht : t.tweet_id with
  | none => rw [ht] at h; exact absurd h (by simp)
  | some tid =>
    rw [ht] at h
    cases hc : t.created_at with
    | none => rw [hc] at h; exact absurd h (by simp)
    | some ca =>
      rw [hc] at h
      cases hco : contentOf t with
      | none => rw [hco] at h; exact absurd h (by simp)
      | some c =>
        rw [hco] at h
        cases hu : t.user_id with
        | none => rw [hu] at h; exact absurd h (by simp)
        | some uid =>
          rw [hu] at h
          cases hn : t.user_name with
          | none => rw [hn] at h; exact absurd h (by simp)
          | some un =>
            rw [hn] at h
            simp only [Except.ok.injEq] at h
            rw [← h]

theorem tweetIdExists_insertOrReplace {rows : List TweetRow} (r : TweetRow)
    {s : String} (h : rows.any (fun q => q.tweet_id == s) = true) :
    (insertOrReplaceTweet rows r).any (fun q => q.tweet_id == s) = true := by
  rcases List.any_eq_true.mp h with ⟨q, hq, hqs⟩
  have hqs2 : q.tweet_id = s := by simpa using hqs
  by_cases hr : q.tweet_id = r.tweet_id
  · refine List.any_eq_true.mpr ⟨r, List.mem_append_right _ (List.mem_singleton.mpr rfl), ?_⟩
    simp [← hr, hqs2]
  · refine List.any_eq_true.mpr ⟨q, List.mem_append_left _ ?_, hqs⟩
    exact List.mem_filter.mpr ⟨hq, by simpa using hr⟩

theorem saveOne_mono {db db2 : DB} {t : Tweet} (h : saveOne db t = .ok db2)
    (s : String) (hs : tweetIdExists db (some s) = true) :
    tweetIdExists db2 (some s) = true := by
  unfold saveOne at h
  cases hrow : mkRow t with
  | error e => rw [hrow] at h; exact absurd h (by simp)
  | ok row =>
    rw [hrow] at h
    simp only [Except.ok.injEq] at h
    rw [← h]
    exact tweetIdExists_insertOrReplace row hs

theorem saveOne_some_id {db db2 : DB} {t : Tweet} (h : saveOne db t = .ok db2) :
    ∃ s, t.tweet_id = some s ∧ tweetIdExists db2 (some s) = true := by
  unfold saveOne at h
  cases hrow : mkRow t with
  | error e => rw [hrow] at h; exact absurd h (by simp)
  | ok row =>
    rw [hrow] at h
    simp only [Except.ok.injEq] at h
    refine ⟨row.tweet_id, mkRow_tweet_id hrow, ?_⟩
    rw [← h]
    show (insertOrReplaceTweet db.tweets row).any
      (fun q => q.tweet_id == row.tweet_id) = true
    exact List.any_eq_true.mpr
      ⟨row, List.mem_append_right _ (List.mem_singleton.mpr rfl), by simp⟩

theorem saveLoop_mono {batch : List Tweet} :
    ∀ {db db2 : DB} {n m : Nat}, saveLoop db batch n = .ok (db2, m) →
    ∀ s, tweetIdExists db (some s) = true → tweetIdExists db2 (some s) = true := by
  induction batch with
  | nil =>
    intro db db2 n m h s hs
    unfold saveLoop at h
    simp only [Except.ok.injEq, Prod.mk.injEq] at h
    rw [← h.1]
    exact hs
  | cons t ts ih =>
    intro db db2 n m h s hs
    unfold saveLoop at h
    by_cases hex : tweetIdExists db t.tweet_id = true
    · rw [if_pos hex] at h
      exact ih h s hs
    · rw [if_neg hex] at h
      cases hone : saveOne db t with
      | error e => rw [hone] at h; exact absurd h (by simp)
      | ok dbm =>
        rw [hone] at h
        exact ih h s (saveOne_mono hone s hs)

theorem saveLoop_all_exist {batch : List Tweet} :
    ∀ {db db2 : DB} {n m : Nat}, saveLoop db batch n = .ok (db2, m) →
    ∀ t ∈ batch, ∃ s, t.tweet_id = some s ∧ tweetIdExists db2 (some s) = true := by
  induction batch with
  | nil => intro db db2 n m h t ht; cases ht
  | cons t0 ts ih =>
    intro db db2 n m h t ht
    unfold saveLoop at h
    rcases List.mem_cons.mp ht with rfl | hts
    · by_cases hex : tweetIdExists db t.tweet_id = true
      · cases hid : t.tweet_id with
        | none => rw [hid] at hex; exact absurd hex (by simp [tweetIdExists])
        | some s =>
          rw [if_pos hex] at h
          rw [hid] at hex
          exact ⟨s, rfl, saveLoop_mono h s hex⟩
      · rw [if_neg hex] at h
        cases hone : saveOne db t with
        | error e => rw [hone] at h; exact absurd h (by simp)
        | ok dbm =>
          rw [hone] at h
          rcases saveOne_some_id hone with ⟨s, hts, hse⟩
          exact ⟨s, hts, saveLoop_mono h s hse⟩
    · by_cases hex : tweetIdExists db t0.tweet_id = true
      · rw [if_pos hex] at h
        exact ih h t hts
      · rw [if_neg hex] at h
        cases hone : saveOne db t0 with
        | error e => rw [hone] at h; exact absurd h (by simp)
        | ok dbm =>
          rw [hone] at h
          exact ih h t hts

theorem saveLoop_skip_all {batch : List Tweet} :
    ∀ {db : DB} {n : Nat},
    (∀ t ∈ batch, tweetIdExists db t.tweet_id = true) →
    saveLoop db batch n = .ok (db, n) := by
  induction batch with
  | nil => intro db n _; rfl
  | cons t ts ih =>
    intro db n hall
    unfold saveLoop
    rw [if_pos (hall t (List.mem_cons_self t ts))]
    exact ih (fun t2 h2 => hall t2 (List.mem_cons_of_mem t h2))

/-! ## Claim C1 -/

/-- C1: saving the same batch twice leaves the same number of stored
items as saving it once, and the second pass reports 0 saved.  (When the
first pass aborts, both passes are no-ops reporting 0; when it succeeds,
every `tweet_id` of the batch is present afterwards, so the second pass
skips every item.) -/
theorem save_tweets_idempotent (db : DB) (batch : List Tweet) :
    (save_tweets (save_tweets db batch).1 batch).1.tweets.length =
      (save_tweets db batch).1.tweets.length ∧
    (save_tweets (save_tweets db batch).1 batch).2 = 0 := by
  by_cases hempty : batch.isEmpty
  · simp [save_tweets, hempty]
  · cases hloop : saveLoop db batch 0 with
    | error e =>
      simp only [save_tweets, hempty, Bool.false_eq_true, if_false, hloop]
      exact ⟨trivial, trivial⟩
    | ok p =>
      obtain ⟨db2, m⟩ := p
      have hall : ∀ t ∈ batch,
          tweetIdExists (update_brand_stats db2) t.tweet_id = true := by
        intro t ht
        rcases saveLoop_all_exist hloop t ht with ⟨s, hts, hse⟩
        rw [hts]
        show (update_brand_stats db2).tweets.any (fun q => q.tweet_id == s) = true
        rw [update_brand_stats_tweets]
        exact hse
      have hloop2 : saveLoop (update_brand_stats db2) batch 0 =
          .ok (update_brand_stats db2, 0) := saveLoop_skip_all hall
      simp only [save_tweets, hempty, Bool.false_eq_true, if_false, hloop, hloop2]
      exact ⟨by rw [update_brand_stats_tweets], rfl⟩

/-! ## Claim C2 -/

/-- A batch item whose `tweet_id` is Python `None`: binding it to the NOT
NULL `tweet_id` column makes the insert raise mid-batch. -/
def badTweet : Tweet :=
  { tweet_id := Option.none
    created_at := some "2024-01-02T10:00:00"
    text := some "x"
    user_id := some "u"
    user_name := some "n" }

/-- Counterexample to C2: a storage failure during the batch does abort
and roll back with a zero count, but `save_tweets` catches the exception
and returns the plain value `(unchanged state, 0)` — the error is
absorbed (logged only), not surfaced to the caller as the claim states. -/
theorem save_tweets_error_not_surfaced :
    saveLoop DB.empty [badTweet] 0 = .error (DBError.notNull "tweet_id") ∧
    save_tweets DB.empty [badTweet] = (DB.empty, 0) :=
  ⟨rfl, rfl⟩

/-- C2 as amended: when a storage failure occurs during a batch, the
whole batch is rolled back (the store state is exactly the entry state)
and the operation returns a zero saved count; the error is logged and
absorbed by `save_tweets` itself, not re-raised to the caller. -/
theorem save_tweets_rollback_zero_on_error (db : DB) (batch : List Tweet)
    (e : DBError) (h : saveLoop db batch 0 = .error e) :
    save_tweets db batch = (db, 0) := by
  have hne : batch.isEmpty = false := by
    cases batch with
    | nil => exact absurd h (by simp [saveLoop])
    | cons t ts => rfl
  simp only [save_tweets, hne, Bool.false_eq_true, if_false, h]

/-- Witness for C2 (amended) at a concrete failing batch. -/
theorem save_tweets_rollback_zero_on_error_witness :
    save_tweets DB.empty [badTweet] = (DB.empty, 0) :=
  save_tweets_rollback_zero_on_error DB.empty [badTweet]
    (DBError.notNull "tweet_id") rfl

/-! ## Claim C3 -/

theorem filter_eq_self_of_no_id {rows : List TweetRow} {r : TweetRow}
    (h : rows.any (fun q => q.tweet_id == r.tweet_id) = false) :
    rows.filter (fun q => q.tweet_id ≠ r.tweet_id) = rows := by
  apply List.filter_eq_self.mpr
  intro q hq
  have := List.any_eq_false.mp h q hq
  simpa using this

theorem saveOne_tweets_append {db db2 : DB} {t : Tweet}
    (h : saveOne db t = .ok db2)
    (hex : tweetIdExists db t.tweet_id = false) :
    ∃ row, mkRow t = .ok row ∧ db2.tweets = db.tweets ++ [row] := by
  unfold saveOne at h
  cases hrow : mkRow t with
  | error e => rw [hrow] at h; exact absurd h (by simp)
  | ok row =>
    rw [hrow] at h
    simp only [Except.ok.injEq] at h
    refine ⟨row, rfl, ?_⟩
    rw [← h]
    show insertOrReplaceTweet db.tweets row = db.tweets ++ [row]
    unfold insertOrReplaceTweet
    rw [filter_eq_self_of_no_id]
    rw [mkRow_tweet_id hrow] at hex
    exact hex

theorem saveLoop_len_mem {batch : List Tweet} :
    ∀ {db db2 : DB} {n m : Nat}, saveLoop db batch n = .ok (db2, m) →
    db2.tweets.length + n = db.tweets.length + m ∧
      ∀ r ∈ db.tweets, r ∈ db2.tweets := by
  induction batch with
  | nil =>
    intro db db2 n m h
    unfold saveLoop at h
    simp only [Except.ok.injEq, Prod.mk.injEq] at h
    rw [← h.1, h.2]
    exact ⟨rfl, fun r hr => hr⟩
  | cons t ts ih =>
    intro db db2 n m h
    unfold saveLoop at h
    by_cases hex : tweetIdExists db t.tweet_id = true
    · rw [if_pos hex] at h
      exact ih h
    · rw [if_neg hex] at h
      cases hone : saveOne db t with
      | error e => rw [hone] at h; exact absurd h (by simp)
      | ok dbm =>
        rw [hone] at h
        rcases saveOne_tweets_append hone (by simpa using hex) with ⟨row, _, happ⟩
        rcases ih h with ⟨hlen, hmem⟩
        constructor
        · rw [happ] at hlen
          simp only [List.length_append, List.length_singleton] at hlen
          omega
        · intro r hr
          exact hmem r (by rw [happ]; exact List.mem_append_left _ hr)

/-- C3: the batch is processed in sequence order; an item whose
`tweet_id` is already present (rows written earlier in the same batch
included) is skipped without touching the stored rows, and the returned
count is exactly the number of rows actually inserted (the difference in
table size), duplicates not counted. -/
theorem save_tweets_dedup_insert_count (db : DB) (batch : List Tweet)
    (db2 : DB) (m : Nat) (h : saveLoop db batch 0 = .ok (db2, m)) :
    db2.tweets.length = db.tweets.length + m ∧
    (∀ r ∈ db.tweets, r ∈ db2.tweets) ∧
    (save_tweets db batch).2 = (m : Int) ∧
    (∀ (t : Tweet) (ts : List Tweet) (n : Nat) (dbx : DB),
      tweetIdExists dbx t.tweet_id = true →
      saveLoop dbx (t :: ts) n = saveLoop dbx ts n) := by
  rcases saveLoop_len_mem h with ⟨hlen, hmem⟩
  refine ⟨by omega, hmem, ?_, ?_⟩
  · cases batch with
    | nil =>
      unfold saveLoop at h
      simp only [Except.ok.injEq, Prod.mk.injEq] at h
      simp [save_tweets, ← h.2]
    | cons t ts =>
      simp [save_tweets, h]
  · intro t ts n dbx hex
    conv_lhs => unfold saveLoop
    rw [if_pos hex]

/-- A representative well-formed batch item (with a brand carrying
surrounding whitespace, repeated/malformed hashtags, and malformed
mentions) used by witnesses. -/
def tweetA : Tweet :=
  { tweet_id := some "a1"
    created_at := some "2024-01-02T10:00:00"
    text := some "Loving my new Tesla!"
    user_id := some "u1"
    user_name := some "alice"
    brand_mentioned := some " Tesla "
    hashtags := [PyV.str "Tesla", PyV.str "tesla", PyV.str "", PyV.num 3,
      PyV.str " EV "]
    mentions := [PyV.str " bob ", PyV.other true, PyV.str ""] }

/-- The state and count the loop produces on `[tweetA]` from the empty
store. -/
def saveLoopA : DB × Nat :=
  match saveLoop DB.empty [tweetA] 0 with
  | .ok p => p
  | .error _ => (DB.empty, 0)

/-- Witness for C3 at a concrete batch. -/
theorem save_tweets_dedup_insert_count_witness :
    saveLoopA.1.tweets.length = DB.empty.tweets.length + saveLoopA.2 ∧
    (save_tweets DB.empty [tweetA]).2 = (saveLoopA.2 : Int) :=
  ⟨(save_tweets_dedup_insert_count DB.empty [tweetA] saveLoopA.1 saveLoopA.2
      rfl).1,
   (save_tweets_dedup_insert_count DB.empty [tweetA] saveLoopA.1 saveLoopA.2
      rfl).2.2.1⟩

/-! ## Claim C6 -/

theorem addHashtag_mem_self (hs : List (String × String)) (tid tag : String) :
    (tid, tag) ∈ addHashtag hs tid tag := by
  unfold addHashtag
  by_cases hmem : (tid, tag) ∈ hs
  · rwa [if_pos hmem]
  · rw [if_neg hmem]
    exact List.mem_append_right _ (List.mem_singleton.mpr rfl)

theorem addHashtag_mem_mono {hs : List (String × String)} {p : String × String}
    (tid tag : String) (h : p ∈ hs) : p ∈ addHashtag hs tid tag := by
  unfold addHashtag
  split
  · exact h
  · exact List.mem_append_left _ h

theorem addHashtag_mem_src {hs : List (String × String)} {p : String × String}
    {tid tag : String} (h : p ∈ addHashtag hs tid tag) :
    p ∈ hs ∨ p = (tid, tag) := by
  unfold addHashtag at h
  split at h
  · exact Or.inl h
  · rcases List.mem_append.mp h with h2 | h2
    · exact Or.inl h2
    · exact Or.inr (List.mem_singleton.mp h2)

theorem saveHashtags_mem_mono (tags : List PyV) :
    ∀ {hs : List (String × String)} {tid : String} {p : String × String},
    p ∈ hs → p ∈ saveHashtags hs tid tags := by
  induction tags with
  | nil => intro hs tid p h; exact h
  | cons tg tags2 ih =>
    intro hs tid p h
    match tg with
    | PyV.str s =>
      by_cases hse : s = ""
      · show p ∈ saveHashtags
          (if s = "" then hs else addHashtag hs tid (normTag s)) tid tags2
        rw [if_pos hse]
        exact ih h
      · show p ∈ saveHashtags
          (if s = "" then hs else addHashtag hs tid (normTag s)) tid tags2
        rw [if_neg hse]
        exact ih (addHashtag_mem_mono tid (normTag s) h)
    | PyV.none => exact ih h
    | PyV.num q => exact ih h
    | PyV.other b => exact ih h

theorem saveHashtags_mem_adds (tags : List PyV) :
    ∀ {hs : List (String × String)} {tid : String} {s : String},
    PyV.str s ∈ tags → s ≠ "" →
    (tid, normTag s) ∈ saveHashtags hs tid tags := by
  induction tags with
  | nil => intro hs tid s h; cases h
  | cons tg tags2 ih =>
    intro hs tid s h hne
    rcases List.mem_cons.mp h with rfl | h2
    · simpa [saveHashtags, List.foldl_cons, hne] using
        saveHashtags_mem_mono tags2 (addHashtag_mem_self hs tid (normTag s))
    · match tg with
      | PyV.str s2 =>
        by_cases hse : s2 = "" <;>
          simpa [saveHashtags, List.foldl_cons, hse] using ih h2 hne
      | PyV.none => simpa [saveHashtags, List.foldl_cons] using ih h2 hne
      | PyV.num q => simpa [saveHashtags, List.foldl_cons] using ih h2 hne
      | PyV.other b => simpa [saveHashtags, List.foldl_cons] using ih h2 hne

theorem saveHashtags_mem_src (tags : List PyV) :
    ∀ {hs : List (String × String)} {tid : String} {p : String × String},
    p ∈ saveHashtags hs tid tags →
    p ∈ hs ∨ ∃ s, PyV.str s ∈ tags ∧ s ≠ "" ∧ p = (tid, normTag s) := by
  induction tags with
  | nil => intro hs tid p h; exact Or.inl h
  | cons tg tags2 ih =>
    intro hs tid p h
    match tg with
    | PyV.str s =>
      by_cases hse : s = ""
      · rw [show saveHashtags hs tid (PyV.str s :: tags2) =
            saveHashtags hs tid tags2 by simp [saveHashtags, List.foldl_cons, hse]] at h
        rcases ih h with h2 | ⟨s2, hs2, hne2, hp2⟩
        · exact Or.inl h2
        · exact Or.inr ⟨s2, List.mem_cons_of_mem _ hs2, hne2, hp2⟩
      · rw [show saveHashtags hs tid (PyV.str s :: tags2) =
            saveHashtags (addHashtag hs tid (normTag s)) tid tags2 by
              simp [saveHashtags, List.foldl_cons, hse]] at h
        rcases ih h with h2 | ⟨s2, hs2, hne2, hp2⟩
        · rcases addHashtag_mem_src h2 with h3 | h3
          · exact Or.inl h3
          · exact Or.inr ⟨s, List.mem_cons_self _ _, hse, h3⟩
        · exact Or.inr ⟨s2, List.mem_cons_of_mem _ hs2, hne2, hp2⟩
    | PyV.none =>
      rcases ih (by simpa [saveHashtags, List.foldl_cons] using h) with
        h2 | ⟨s2, hs2, hne2, hp2⟩
      · exact Or.inl h2
      · exact Or.inr ⟨s2, List.mem_cons_of_mem _ hs2, hne2, hp2⟩
    | PyV.num q =>
      rcases ih (by simpa [saveHashtags, List.foldl_cons] using h) with
        h2 | ⟨s2, hs2, hne2, hp2⟩
      · exact Or.inl h2
      · exact Or.inr ⟨s2, List.mem_cons_of_mem _ hs2, hne2, hp2⟩
    | PyV.other b =>
      rcases ih (by simpa [saveHashtags, List.foldl_cons] using h) with
        h2 | ⟨s2, hs2, hne2, hp2⟩
      · exact Or.inl h2
      · exact Or.inr ⟨s2, List.mem_cons_of_mem _ hs2, hne2, hp2⟩

theorem saveMentions_eq (ms : List PyV) :
    ∀ (acc : List (String × String)) (tid : String),
    saveMentions acc tid ms = acc ++ ms.filterMap (fun m =>
      match m with
      | PyV.str s => if s = "" then Option.none else some (tid, pyStrip s)
      | _ => Option.none) := by
  induction ms with
  | nil => intro acc tid; simp [saveMentions]
  | cons m ms2 ih =>
    intro acc tid
    match m with
    | PyV.str s =>
      by_cases hse : s = ""
      · show saveMentions
          (if s = "" then acc else acc ++ [(tid, pyStrip s)]) tid ms2 = _
        rw [if_pos hse, ih]
        simp [List.filterMap_cons, hse]
      · show saveMentions
          (if s = "" then acc else acc ++ [(tid, pyStrip s)]) tid ms2 = _
        rw [if_neg hse, ih]
        simp [List.filterMap_cons, hse]
    | PyV.none =>
      show saveMentions acc tid ms2 = _
      rw [ih]
      simp [List.filterMap_cons]
    | PyV.num q =>
      show saveMentions acc tid ms2 = _
      rw [ih]
      simp [List.filterMap_cons]
    | PyV.other b =>
      show saveMentions acc tid ms2 = _
      rw [ih]
      simp [List.filterMap_cons]

/-- C6: for an accepted item, every entity entry that is a truthy string
is stored — hashtags lowercased and stripped, mentions stripped — and
every other entry (empty string or non-string) is dropped; malformed
entries never make the insert fail. -/
theorem save_tweets_entity_normalization (db : DB) (t : Tweet)
    (row : TweetRow) (h : mkRow t = .ok row) :
    saveOne db t = .ok (saveOneOk db t row) ∧
    (∀ s, PyV.str s ∈ t.hashtags → s ≠ "" →
      (row.tweet_id, normTag s) ∈ (saveOneOk db t row).hashtags) ∧
    (∀ p ∈ (saveOneOk db t row).hashtags, p ∈ db.hashtags ∨
      ∃ s, PyV.str s ∈ t.hashtags ∧ s ≠ "" ∧ p = (row.tweet_id, normTag s)) ∧
    (saveOneOk db t row).mentions = db.mentions ++ t.mentions.filterMap
      (fun m => match m with
        | PyV.str s => if s = "" then Option.none else some (row.tweet_id, pyStrip s)
        | _ => Option.none) := by
  refine ⟨?_, ?_, ?_, ?_⟩
  · unfold saveOne
    rw [h]
  · intro s hmem hne
    exact saveHashtags_mem_adds t.hashtags hmem hne
  · intro p hp
    exact saveHashtags_mem_src t.hashtags hp
  · exact saveMentions_eq t.mentions db.mentions row.tweet_id

/-- The row `mkRow` validates for `tweetA` (total accessor for the
witness below). -/
def mkRowA : TweetRow :=
  match mkRow tweetA with
  | .ok r => r
  | .error _ =>
    { tweet_id := "", created_at := "", content := "", user_id := "",
      user_name := "", user_display_name := Option.none,
      user_followers := Option.none, user_following := Option.none,
      retweet_count := Option.none, favorite_count := Option.none,
      reply_count := Option.none, is_retweet := 0,
      language := Option.none, source := Option.none,
      sentiment_score := Option.none, sentiment_category := Option.none,
      brand_mentioned := Option.none }

/-- Witness for C6: on the representative item, the tag " EV " is stored
normalized, and the mention rows are exactly the stripped truthy-string
entries. -/
theorem save_tweets_entity_normalization_witness :
    (mkRowA.tweet_id, normTag " EV ") ∈
      (saveOneOk DB.empty tweetA mkRowA).hashtags ∧
    (saveOneOk DB.empty tweetA mkRowA).mentions =
      DB.empty.mentions ++ tweetA.mentions.filterMap (fun m =>
        match m with
        | PyV.str s => if s = "" then Option.none else
            some (mkRowA.tweet_id, pyStrip s)
        | _ => Option.none) :=
  ⟨(save_tweets_entity_normalization DB.empty tweetA mkRowA rfl).2.1
      " EV " (by decide) (by decide),
   (save_tweets_entity_normalization DB.empty tweetA mkRowA rfl).2.2.2⟩

/-! ## Claim C7 -/

theorem addHashtag_nodup {hs : List (String × String)} (tid tag : String)
    (h : hs.Nodup) : (addHashtag hs tid tag).Nodup := by
  by_cases hmem : (tid, tag) ∈ hs
  · rwa [addHashtag, if_pos hmem]
  · rw [addHashtag, if_neg hmem]
    refine List.Nodup.append h (List.nodup_singleton _) ?_
    intro a ha hb
    rw [List.mem_singleton.mp hb] at ha
    exact hmem ha

theorem saveHashtags_nodup (tags : List PyV) :
    ∀ {hs : List (String × String)} {tid : String},
    hs.Nodup → (saveHashtags hs tid tags).Nodup := by
  induction tags with
  | nil => intro hs tid h; exact h
  | cons tg tags2 ih =>
    intro hs tid h
    match tg with
    | PyV.str s =>
      by_cases hse : s = ""
      · show List.Nodup (saveHashtags
          (if s = "" then hs else addHashtag hs tid (normTag s)) tid tags2)
        rw [if_pos hse]
        exact ih h
      · show List.Nodup (saveHashtags
          (if s = "" then hs else addHashtag hs tid (normTag s)) tid tags2)
        rw [if_neg hse]
        exact ih (addHashtag_nodup tid (normTag s) h)
    | PyV.none => exact ih h
    | PyV.num q => exact ih h
    | PyV.other b => exact ih h

theorem saveOne_hashtags_nodup {db db2 : DB} {t : Tweet}
    (h : saveOne db t = .ok db2) (hn : db.hashtags.Nodup) :
    db2.hashtags.Nodup := by
  unfold saveOne at h
  cases hrow : mkRow t with
  | error e => rw [hrow] at h; exact absurd h (by simp)
  | ok row =>
    rw [hrow] at h
    simp only [Except.ok.injEq] at h
    rw [← h]
    exact saveHashtags_nodup t.hashtags hn

theorem saveLoop_hashtags_nodup {batch : List Tweet} :
    ∀ {db db2 : DB} {n m : Nat}, saveLoop db batch n = .ok (db2, m) →
    db.hashtags.Nodup → db2.hashtags.Nodup := by
  induction batch with
  | nil =>
    intro db db2 n m h hn
    unfold saveLoop at h
    simp only [Except.ok.injEq, Prod.mk.injEq] at h
    rw [← h.1]
    exact hn
  | cons t ts ih =>
    intro db db2 n m h hn
    unfold saveLoop at h
    by_cases hex : tweetIdExists db t.tweet_id = true
    · rw [if_pos hex] at h
      exact ih h hn
    · rw [if_neg hex] at h
      cases hone : saveOne db t with
      | error e => rw [hone] at h; exact absurd h (by simp)
      | ok dbm =>
        rw [hone] at h
        exact ih h (saveOne_hashtags_nodup hone hn)

/-- C7: in every state reachable by any sequence of saves, the Tags
relation holds each (item, normalized tag) pair at most once — the
UNIQUE(tweet_id, hashtag) constraint plus insert-or-ignore keeps the
pair list duplicate-free. -/
theorem hashtags_nodup_invariant (db : DB) (h : Reachable db) :
    db.hashtags.Nodup := by
  induction h with
  | init => exact List.nodup_nil
  | step db2 batch h2 ih =>
    by_cases hempty : batch.isEmpty
    · simpa [save_tweets, hempty] using ih
    · cases hloop : saveLoop db2 batch 0 with
      | error e =>
        simpa [save_tweets, hempty, hloop] using ih
      | ok p =>
        have : (save_tweets db2 batch).1 = update_brand_stats p.1 := by
          simp [save_tweets, hempty, hloop]
        rw [this, update_brand_stats_hashtags]
        exact saveLoop_hashtags_nodup hloop ih

/-- Witness for C7: the invariant at the state reached by saving the
representative batch (whose source repeats the tag "tesla"). -/
theorem hashtags_nodup_invariant_witness :
    (save_tweets DB.empty [tweetA]).1.hashtags.Nodup :=
  hashtags_nodup_invariant _ (Reachable.step DB.empty [tweetA] Reachable.init)

/-! ## Claim C8 -/

/-- Counterexample to C8: after successfully saving an item whose
`tracked_entity` is " Tesla " (non-empty, with surrounding whitespace),
that exact value is on a stored item but no row of the registry carries
it — the maintenance step registers the stripped "Tesla" instead. -/
theorem brand_registry_exact_name_fails :
    (save_tweets DB.empty [tweetA]).2 = 1 ∧
    (∃ r ∈ (save_tweets DB.empty [tweetA]).1.tweets,
      r.brand_mentioned = some " Tesla ") ∧
    " Tesla " ∉ (save_tweets DB.empty [tweetA]).1.brands := by
  refine ⟨rfl, ⟨mkRowA, ?_, rfl⟩, by decide⟩
  show mkRowA ∈ insertOrReplaceTweet DB.empty.tweets mkRowA
  exact List.mem_append_right _ (List.mem_singleton.mpr rfl)

/-- The completeness property C8 actually enjoys: every non-empty
`tracked_entity` value on a stored item appears *stripped of surrounding
whitespace* in the registry. -/
def brandComplete (db : DB) : Prop :=
  ∀ r ∈ db.tweets, ∀ b, r.brand_mentioned = some b → b ≠ "" →
    pyStrip b ∈ db.brands

theorem insertBrand_mem_mono {brands : List String} {x : String}
    (name : String) (h : x ∈ brands) : x ∈ insertBrand brands name := by
  unfold insertBrand
  split
  · exact h
  · exact List.mem_append_left _ h

theorem mem_sqlDistinctAux (l : List String) :
    ∀ {seen : List String} {x : String}, x ∈ l → x ∉ seen →
    x ∈ sqlDistinctAux l seen := by
  induction l with
  | nil => intro seen x h; cases h
  | cons y ys ih =>
    intro seen x h hseen
    rcases List.mem_cons.mp h with rfl | h2
    · rw [sqlDistinctAux, if_neg hseen]
      exact List.mem_cons_self _ _
    · by_cases hy : y ∈ seen
      · rw [sqlDistinctAux, if_pos hy]
        exact ih h2 hseen
      · rw [sqlDistinctAux, if_neg hy]
        by_cases hxy : x = y
        · exact hxy ▸ List.mem_cons_self _ _
        · exact List.mem_cons_of_mem _
            (ih h2 (by simp [hseen, hxy]))

theorem mem_sqlDistinct {l : List String} {x : String} (h : x ∈ l) :
    x ∈ sqlDistinct l :=
  mem_sqlDistinctAux l h (by simp)

theorem foldl_insertBrand_mono (l : List String) :
    ∀ {acc : List String} {x : String}, x ∈ acc →
    x ∈ l.foldl (fun acc b => if b = "" then acc else insertBrand acc (pyStrip b)) acc := by
  induction l with
  | nil => intro acc x h; exact h
  | cons b bs ih =>
    intro acc x h
    show x ∈ bs.foldl _ (if b = "" then acc else insertBrand acc (pyStrip b))
    by_cases hb : b = ""
    · rw [if_pos hb]
      exact ih h
    · rw [if_neg hb]
      exact ih (insertBrand_mem_mono (pyStrip b) h)

theorem foldl_insertBrand_adds (l : List String) :
    ∀ {acc : List String} {b : String}, b ∈ l → b ≠ "" →
    pyStrip b ∈ l.foldl (fun acc b => if b = "" then acc else insertBrand acc (pyStrip b)) acc := by
  induction l with
  | nil => intro acc b h; cases h
  | cons c cs ih =>
    intro acc b h hne
    rcases List.mem_cons.mp h with rfl | h2
    · show pyStrip b ∈ cs.foldl _ (if b = "" then acc else insertBrand acc (pyStrip b))
      rw [if_neg hne]
      apply foldl_insertBrand_mono
      unfold insertBrand
      split
      · assumption
      · exact List.mem_append_right _ (List.mem_singleton.mpr rfl)
    · show pyStrip b ∈ cs.foldl _ (if c = "" then acc else insertBrand acc (pyStrip c))
      by_cases hc : c = ""
      · rw [if_pos hc]; exact ih h2 hne
      · rw [if_neg hc]; exact ih h2 hne

theorem update_brand_stats_complete (db : DB) :
    brandComplete (update_brand_stats db) := by
  intro r hr b hb hbne
  rw [update_brand_stats_tweets] at hr
  have hval : b ∈ (db.tweets.filterMap (fun r => r.brand_mentioned)).filter
      (fun b => b ≠ "") :=
    List.mem_filter.mpr ⟨List.mem_filterMap.mpr ⟨r, hr, hb⟩, by simpa using hbne⟩
  exact foldl_insertBrand_adds _ (mem_sqlDistinct hval) hbne

/-- C8 as amended: in every reachable state (in particular after every
successful save from a reachable state), every distinct non-empty
`tracked_entity` value present on stored items appears in the registry
in its whitespace-stripped form — with its exact spelling only when it
carries no surrounding whitespace. -/
theorem brand_registry_trimmed_complete (db : DB) (h : Reachable db) :
    brandComplete db := by
  induction h with
  | init => intro r hr; cases hr
  | step db2 batch h2 ih =>
    by_cases hempty : batch.isEmpty
    · simpa [save_tweets, hempty] using ih
    · cases hloop : saveLoop db2 batch 0 with
      | error e => simpa [save_tweets, hempty, hloop] using ih
      | ok p =>
        have : (save_tweets db2 batch).1 = update_brand_stats p.1 := by
          simp [save_tweets, hempty, hloop]
        rw [this]
        exact update_brand_stats_complete p.1

/-- Witness for C8 (amended) at the state reached by saving the
representative batch. -/
theorem brand_registry_trimmed_complete_witness :
    brandComplete (save_tweets DB.empty [tweetA]).1 :=
  brand_registry_trimmed_complete _
    (Reachable.step DB.empty [tweetA] Reachable.init)

/-! ## Claim C9 -/

/-- C9: the daily total equals the number of stored items whose
`created_at` date is the queried date, and both reported means are 0.0
when no such items exist. -/
theorem get_daily_stats_consistency (db : DB) (d : String) :
    (get_daily_stats db d).total_tweets =
      db.tweets.countP (fun r => sqlDate r.created_at == d) ∧
    (db.tweets.filter (fun r => sqlDate r.created_at == d) = [] →
      (get_daily_stats db d).avg_retweets = 0 ∧
      (get_daily_stats db d).avg_favorites = 0) := by
  constructor
  · show (db.tweets.filter (fun r => sqlDate r.created_at == d)).length = _
    rw [List.countP_eq_length_filter]
  · intro hnil
    constructor
    · show pyFloatOrZero (sqlAvg ((db.tweets.filter
        (fun r => sqlDate r.created_at == d)).map (fun r => r.retweet_count))) = 0
      rw [hnil]
      rfl
    · show pyFloatOrZero (sqlAvg ((db.tweets.filter
        (fun r => sqlDate r.created_at == d)).map (fun r => r.favorite_count))) = 0
      rw [hnil]
      rfl

/-- Witness for C9: the empty store on a concrete date. -/
theorem get_daily_stats_consistency_witness :
    (get_daily_stats DB.empty "2024-01-02").avg_retweets = 0 ∧
    (get_daily_stats DB.empty "2024-01-02").avg_favorites = 0 :=
  (get_daily_stats_consistency DB.empty "2024-01-02").2 rfl

end TwitterDI
